import Mathlib

/-!
# Verification of `scripts/collect_results.py`

A shallow embedding, in Lean 4, of the data-collection script
`scripts/collect_results.py` of the httpie-cli-carbon-study repository,
together with theorems settling the spec's claims about it.

The script downloads Eco-CI JSON energy-measurement artifacts from the
GitHub Actions API and consolidates them into one CSV file.  Network
responses (workflow runs, artifact listings, downloaded archive bytes)
are modelled as explicit input data; file writes, warnings and process
exit are modelled as explicit output data.
-/

namespace CollectResults

/-! ## Python string primitives

The script uses `str.endswith`, `str.startswith`, `str.lower`,
`str.split` (single-character separators `"-"` and `"/"`) and the `in`
substring test.  They are modelled over the character list of a
`String` so that every use evaluates by kernel reduction. -/

/-- Python `s.endswith(suffix)`. -/
def pyEndsWith (s suffix : String) : Bool :=
  suffix.data.isSuffixOf s.data

/-- Python `s.startswith(prefixStr)`. -/
def pyStartsWith (s prefixStr : String) : Bool :=
  prefixStr.data.isPrefixOf s.data

/-- Python `s.lower()`. -/
def pyLower (s : String) : String :=
  String.mk (s.data.map Char.toLower)

/-- Python `needle in haystack` on character lists. -/
def listContains (needle : List Char) : List Char → Bool
  | [] => needle.isEmpty
  | c :: rest => needle.isPrefixOf (c :: rest) || listContains needle rest

/-- Python `needle in haystack` for strings. -/
def pyContains (haystack needle : String) : Bool :=
  listContains needle.data haystack.data

/-- Python `s.split(sep)` for a single-character separator, on
character lists: `"".split(sep) = [""]`, adjacent separators yield
empty parts. -/
def pySplitChar (sep : Char) : List Char → List (List Char)
  | [] => [[]]
  | c :: rest =>
      let parts := pySplitChar sep rest
      if c == sep then [] :: parts
      else
        match parts with
        | [] => [[c]]
        | p :: ps => (c :: p) :: ps

/-- Python `s.split(sep)` for a single-character separator. -/
def pySplit (s : String) (sep : Char) : List String :=
  (pySplitChar sep s.data).map String.mk

/-! ## JSON values

Python's `json.load` produces nested values of types
`None | bool | number | str | list | dict`.  A parsed JSON object is a
Python dict with unique string keys, modelled as an association list;
numbers are modelled as rationals (the script never computes with them,
it only passes them through). -/

inductive JVal : Type where
  | null : JVal
  | bool : Bool → JVal
  | num : ℚ → JVal
  | str : String → JVal
  | arr : List JVal → JVal
  | obj : List (String × JVal) → JVal


/-- Python's `m.get(key, default)` on a dict: the value bound to `key`,
or `default` when the key is absent.  (Keys of a parsed JSON object are
unique, so first-match lookup is the dict lookup.) -/
def dictGet (fields : List (String × JVal)) (key : String) (default : JVal) : JVal :=
  (fields.lookup key).getD default

/-- One normalized measurement entry, as built by `parse_eco_ci_json`:
the dict appended to `rows` for each measurement object `m`.  Field
values are whatever JSON values `m.get` returned. -/
structure MRecord : Type where
  stage : JVal
  energy_joules : JVal
  duration_seconds : JVal
  timestamp : JVal


/-! ## Input model for `parse_eco_ci_json`

The function receives raw bytes and opens them with
`zipfile.ZipFile`/`json.load`.  We model the bytes by their parse
outcome: either the zip layer rejects them (`BadZipFile`), or they are
an archive whose member files each either fail JSON parsing
(`json.JSONDecodeError`) or yield a JSON value. -/

inductive MemberContent : Type where
  | junk : String → MemberContent
  | val : JVal → MemberContent


structure ZipMember : Type where
  name : String
  content : MemberContent


inductive ZipInput : Type where
  | badZip : ZipInput
  | archive : List ZipMember → ZipInput


/-- The list comprehension
`[n for n in zf.namelist() if n.endswith(".json")]`. -/
def jsonFiles (members : List ZipMember) : List ZipMember :=
  members.filter (fun m => pyEndsWith m.name ".json")

/-- The warnings `parse_eco_ci_json` can print. -/
inductive ParseWarning : Type where
  | noJsonFiles : String → ParseWarning
  | notAZip : String → ParseWarning
  | jsonError : String → String → ParseWarning


/-- Result of running `parse_eco_ci_json`: either the function returns
normally (`done rows warnings`), or an exception not caught by its
`except` clauses propagates out (`fatal`), e.g. the `AttributeError`
raised by `m.get` when a measurement `m` is not a dict. -/
inductive Outcome : Type where
  | done : List MRecord → List ParseWarning → Outcome
  | fatal : String → Outcome


def Outcome.rowsOf : Outcome → Option (List MRecord)
  | .done rows _ => some rows
  | .fatal _ => none

def Outcome.warningsOf : Outcome → List ParseWarning
  | .done _ ws => ws
  | .fatal _ => []

/-- The body of the `for m in measurements` loop: `m.get("label", "unknown")`
etc.  When `m` is not a dict, Python's `m.get` raises `AttributeError`,
which no `except` clause of `parse_eco_ci_json` catches. -/
def extract_measurement (m : JVal) : Except String MRecord :=
  match m with
  | .obj fields =>
      .ok { stage := dictGet fields "label" (.str "unknown")
            energy_joules :=
              dictGet fields "total_energy_J" (dictGet fields "cpu_energy_J" (.num 0))
            duration_seconds := dictGet fields "duration" (.num 0)
            timestamp := dictGet fields "time" (.str "") }
  | _ => .error "AttributeError: object has no attribute get"

/-- Extract every measurement of one member file, in order; the first
non-dict measurement aborts with its exception. -/
def extract_all : List JVal → Except String (List MRecord)
  | [] => .ok []
  | m :: rest => do
      let r ← extract_measurement m
      let rs ← extract_all rest
      .ok (r :: rs)

/-- The shape dispatch on one member file's parsed JSON `data`:
a list is the measurements; a dict yields its `"measurements"` entry
when present, else `[data]`; any other top-level value hits `continue`
(modelled as `none`).  A `"measurements"` entry that is not a list
makes the subsequent `for m in measurements` loop misbehave
(iterating a non-sequence raises `TypeError`, iterating a dict or a
string feeds non-dict `m` into `m.get`, raising `AttributeError`
unless the iteration is empty); we model every non-list
`"measurements"` entry as an uncaught exception. -/
def measurementsOf (data : JVal) : Option (Except String (List JVal)) :=
  match data with
  | .arr xs => some (.ok xs)
  | .obj fields =>
      match fields.lookup "measurements" with
      | some (.arr ms) => some (.ok ms)
      | some _ => some (.error "TypeError: non-list measurements value")
      | none => some (.ok [data])
  | _ => none

/-- The `for fname in json_files` loop of `parse_eco_ci_json`, with
accumulator `acc` playing `rows`.  A `json.JSONDecodeError` from
`json.load` unwinds the loop, is caught by the `except` clause (one
warning), and the function returns the rows accumulated so far; an
uncaught exception (non-dict measurement) is fatal. -/
def processMembers (artifact_name : String) :
    List ZipMember → List MRecord → Outcome
  | [], acc => .done acc []
  | m :: rest, acc =>
      match m.content with
      | .junk e => .done acc [.jsonError artifact_name e]
      | .val data =>
          match measurementsOf data with
          | none => processMembers artifact_name rest acc
          | some (.error e) => .fatal e
          | some (.ok ms) =>
              match extract_all ms with
              | .error e => .fatal e
              | .ok newRows => processMembers artifact_name rest (acc ++ newRows)

/-- `parse_eco_ci_json(raw_bytes, artifact_name)`: open the zip, keep
the member names ending in `".json"`, warn and return `[]` when there
are none, else process them in order. -/
def parse_eco_ci_json (input : ZipInput) (artifact_name : String) : Outcome :=
  match input with
  | .badZip => .done [] [.notAZip artifact_name]
  | .archive members =>
      let json_files := jsonFiles members
      if json_files.isEmpty then
        .done [] [.noJsonFiles artifact_name]
      else
        processMembers artifact_name json_files []

/-! ## Configuration tables

The two module-level dict constants, in source (= dict iteration)
order. -/

/-- `WORKFLOW_CONFIG_MAP`: workflow file names → config labels. -/
def WORKFLOW_CONFIG_MAP : List (String × String) :=
  [ ("tests.yml", "C1"),
    ("code-style.yml", "C1"),
    ("coverage.yml", "C1"),
    ("ci-consolidated.yml", "C3") ]

/-- `BRANCH_CONFIG_MAP`: branch name prefixes → config labels. -/
def BRANCH_CONFIG_MAP : List (String × String) :=
  [ ("experiment/c1-baseline", "C1"),
    ("experiment/c2-pip-cache", "C2"),
    ("experiment/c3-consolidation", "C3"),
    ("experiment/c4-combined", "C4") ]

/-! ## Workflow runs and artifacts

A `WorkflowRun` carries the fields of the run object the script reads
(`id`, `head_branch`, `name`, `path`); each `.get` with a default is
modelled by an `Option` field.  Since artifact listing and download are
plain GET requests, the world's responses are attached to the run: its
artifact list, and for each artifact the download outcome. -/

/-- One artifact of a run: its `name`, its `archive_download_url`
metadata field, and the body the server would answer with
(`response = none` models a non-200 status for the download GET). -/
structure Artifact : Type where
  name : String
  archive_download_url : Option String
  response : Option ZipInput

/-- One completed workflow run, with the artifact listing the API
returns for it. -/
structure WorkflowRun : Type where
  id : ℕ
  head_branch : Option String
  name : Option String
  path : Option String
  artifacts : List Artifact

/-- `infer_config(run)`: walk `BRANCH_CONFIG_MAP` in order, returning
the first label whose prefix the branch equals or starts with; else
look up the last `/`-component of the run's `path` in
`WORKFLOW_CONFIG_MAP`, defaulting to `"unknown"`. -/
def findBranchLabel (branch : String) : List (String × String) → Option String
  | [] => none
  | (p, label) :: rest =>
      if branch == p || pyStartsWith branch p then some label
      else findBranchLabel branch rest

def infer_config (run : WorkflowRun) : String :=
  let branch := run.head_branch.getD ""
  match findBranchLabel branch BRANCH_CONFIG_MAP with
  | some label => label
  | none =>
      let workflow_file := ((pySplit (run.path.getD "") '/').getLast?).getD ""
      (WORKFLOW_CONFIG_MAP.lookup workflow_file).getD "unknown"

/-- The `for part in artifact_name.split("-")` loop of
`infer_python_version`. -/
def findPyPart : List String → String
  | [] => ""
  | part :: rest =>
      if pyStartsWith part "py" then String.mk (part.data.drop 2)
      else findPyPart rest

/-- `infer_python_version(artifact_name)`: first `-`-separated token
starting with `"py"`, with that prefix stripped; else `""`. -/
def infer_python_version (artifact_name : String) : String :=
  findPyPart (pySplit artifact_name '-')

/-! ## Environment and `get_headers` -/

/-- The two environment variables read at module load. -/
structure Env : Type where
  GITHUB_TOKEN : Option String
  GITHUB_REPO : Option String

/-- Python `not s` for an optional string: true for an unset variable
and for an empty one. -/
def pyFalsy : Option String → Bool
  | none => true
  | some s => s.data.isEmpty

/-- The request headers `get_headers` builds. -/
structure Headers : Type where
  authorization : String
  accept : String
  apiVersion : String

/-- `sys.exit(1)` after an error print: exit status and stderr line. -/
structure Abort : Type where
  status : ℕ
  stderrLine : String

/-- `get_headers()`: abort with status 1 and an error line on stderr
when either variable is falsy, else return the header dict. -/
def get_headers (env : Env) : Except Abort Headers :=
  if pyFalsy env.GITHUB_TOKEN then
    .error { status := 1
             stderrLine := "ERROR: GITHUB_TOKEN environment variable not set." }
  else if pyFalsy env.GITHUB_REPO then
    .error { status := 1
             stderrLine := "ERROR: GITHUB_REPO environment variable not set." }
  else
    .ok { authorization := "Bearer " ++ (env.GITHUB_TOKEN.getD "")
          accept := "application/vnd.github+json"
          apiVersion := "2022-11-28" }

/-! ## Pagination

`paginate` requests pages 1, 2, 3, … with `per_page = 100` and stops
after the first page holding fewer than 100 items.  The remote endpoint
is modelled as a function from page number to the item list
`data.get(key, [])`; the `while True` loop is given fuel, `none`
standing for non-termination within the fuel.  Alongside the collected
results the model records which pages were requested, in order. -/

def paginateAux (fetch : ℕ → List α) :
    ℕ → ℕ → List α → List ℕ → Option (List α × List ℕ)
  | 0, _, _, _ => none
  | fuel + 1, page, results, requested =>
      let items := fetch page
      let results' := results ++ items
      let requested' := requested ++ [page]
      if items.length < 100 then some (results', requested')
      else paginateAux fetch fuel (page + 1) results' requested'

def paginate (fetch : ℕ → List α) (fuel : ℕ) : Option (List α × List ℕ) :=
  paginateAux fetch fuel 1 [] []

/-! ## Download and the main loop -/

/-- `download_artifact(artifact)`: `None` without a request when the
metadata has no `archive_download_url`; otherwise one GET, returning
the body on HTTP 200 and `None` with a warning otherwise.  The result
records (content, warning lines, whether a request was made). -/
def download_artifact (a : Artifact) : Option ZipInput × List String × Bool :=
  match a.archive_download_url with
  | none => (none, [], false)
  | some _ =>
      match a.response with
      | some content => (some content, [], true)
      | none =>
          (none, ["  WARNING: Could not download artifact " ++ a.name], true)

/-- One row of the output CSV, as assembled in `main`'s innermost
loop. -/
structure OutputRow : Type where
  run_id : ℕ
  config : String
  workflow : String
  branch : String
  stage : JVal
  energy_joules : JVal
  duration_seconds : JVal
  timestamp : JVal
  python_version : String

/-- The `for artifact in eco_artifacts` body: skip on failed download,
else parse the zip and join each measurement row with the run-level
metadata.  A `fatal` parse outcome is an uncaught exception. -/
def processArtifact (run_id : ℕ) (config workflow_name branch : String)
    (a : Artifact) : Except String (List OutputRow) :=
  match (download_artifact a).1 with
  | none => .ok []
  | some raw =>
      match parse_eco_ci_json raw a.name with
      | .fatal e => .error e
      | .done rows _ =>
          let python_version := infer_python_version a.name
          .ok (rows.map fun r =>
            { run_id := run_id
              config := config
              workflow := workflow_name
              branch := branch
              stage := r.stage
              energy_joules := r.energy_joules
              duration_seconds := r.duration_seconds
              timestamp := r.timestamp
              python_version := python_version })

/-- Fold of `processArtifact` over a run's eco artifacts, appending to
`all_rows` in order. -/
def processArtifacts (run_id : ℕ) (config workflow_name branch : String) :
    List Artifact → List OutputRow → Except String (List OutputRow)
  | [], acc => .ok acc
  | a :: rest, acc => do
      let rows ← processArtifact run_id config workflow_name branch a
      processArtifacts run_id config workflow_name branch rest (acc ++ rows)

/-- The `for run in runs` body: read the run metadata, filter the
artifacts to those whose lower-cased name contains `"eco-ci"` (zero of
them means warn and continue), and process each. -/
def processRun (run : WorkflowRun) (acc : List OutputRow) :
    Except String (List OutputRow) :=
  let branch := run.head_branch.getD "unknown"
  let workflow_name := run.name.getD "unknown"
  let config := infer_config run
  let eco_artifacts := run.artifacts.filter
    (fun a => pyContains (pyLower a.name) "eco-ci")
  processArtifacts run.id config workflow_name branch eco_artifacts acc

/-- The whole `for run in runs` loop with accumulator `all_rows`. -/
def collectRows : List WorkflowRun → List OutputRow →
    Except String (List OutputRow)
  | [], acc => .ok acc
  | run :: rest, acc => do
      let acc' ← processRun run acc
      collectRows rest acc'

/-- A CSV cell before `csv.DictWriter` stringifies it: the run id is an
integer, five fields are strings, and the measurement fields are the
JSON values extracted from the artifact. -/
inductive Cell : Type where
  | nat : ℕ → Cell
  | str : String → Cell
  | jval : JVal → Cell

/-- `CSV_COLUMNS`, the header row. -/
def CSV_COLUMNS : List String :=
  [ "run_id", "config", "workflow", "branch", "stage",
    "energy_joules", "duration_seconds", "timestamp", "python_version" ]

/-- One data row, cells in `CSV_COLUMNS` order. -/
def rowCells (row : OutputRow) : List Cell :=
  [ .nat row.run_id, .str row.config, .str row.workflow, .str row.branch,
    .jval row.stage, .jval row.energy_joules, .jval row.duration_seconds,
    .jval row.timestamp, .str row.python_version ]

/-- `OUTPUT_CSV`, the fixed output path. -/
def OUTPUT_CSV : String := "results/raw_data.csv"

/-- How the program ends: an early `sys.exit(1)` from `get_headers`
(with its stderr line), an uncaught exception, or a normal finish with
exit status 0, a final stdout line, and optionally a written file
(path, header row, data rows). -/
inductive ProgOutcome : Type where
  | aborted : ℕ → String → ProgOutcome
  | crashed : String → ProgOutcome
  | finished : ℕ → String → Option (String × List String × List (List Cell)) →
      ProgOutcome

/-- The tail of `main()`: with zero rows print the diagnostic and
`sys.exit(0)` writing nothing; otherwise write header and all data rows
to `OUTPUT_CSV`. -/
def writeOutput (all_rows : List OutputRow) : ProgOutcome :=
  if all_rows.isEmpty then
    .finished 0 "\nNo data collected. Have the workflows been triggered yet?" none
  else
    .finished 0
      ("\n✓ Wrote " ++ toString all_rows.length ++ " rows to results/raw_data.csv")
      (some (OUTPUT_CSV, CSV_COLUMNS, all_rows.map rowCells))

/-- `main()`, over the environment and the completed runs the API
reports: the first API call (`list_workflow_runs` → `paginate` →
`api_get`) invokes `get_headers`, which aborts when a required
environment variable is missing; then every run is processed and the
collected rows are written. -/
def main (env : Env) (runs : List WorkflowRun) : ProgOutcome :=
  match get_headers env with
  | .error ab => .aborted ab.status ab.stderrLine
  | .ok _ =>
      match collectRows runs [] with
      | .error e => .crashed e
      | .ok all_rows => writeOutput all_rows

/-- Number of HTTP requests `main` performs before reaching a given
point is not tracked request-by-request; for the claims it is enough
that the abort in `get_headers` happens during the *first* request's
header construction, i.e. before any request is sent.  `requestsMade`
counts the requests actually sent: none when `get_headers` aborts,
else the run-listing pages plus one artifact-listing request per run
plus one download request per eco artifact with a download URL. -/
def requestsMade (env : Env) (runs : List WorkflowRun) : ℕ :=
  match get_headers env with
  | .error _ => 0
  | .ok _ =>
      1 + runs.length +
        (runs.map (fun run =>
          ((run.artifacts.filter
              (fun a => pyContains (pyLower a.name) "eco-ci")).filter
            (fun a => a.archive_download_url.isSome)).length)).sum

/-! ## Claim-side (spec-worded) definitions

These restate, in the spec's words, what some claims assert about the
functions above; theorems compare them with the source embeddings. -/

/-- Spec wording of configuration inference: the label of the first
`BRANCH_CONFIG_MAP` entry whose key the branch equals or starts with;
else the `WORKFLOW_CONFIG_MAP` label of the final path component of the
workflow file path; else `"unknown"`. -/
def specConfig (run : WorkflowRun) : String :=
  let branch := run.head_branch.getD ""
  match BRANCH_CONFIG_MAP.find?
      (fun entry => branch == entry.1 || pyStartsWith branch entry.1) with
  | some entry => entry.2
  | none =>
      let finalComponent := ((pySplit (run.path.getD "") '/').getLast?).getD ""
      (WORKFLOW_CONFIG_MAP.lookup finalComponent).getD "unknown"

/-- Spec wording of runtime-version inference: the first `-`-token
beginning with `"py"`, with that prefix removed, else `""`. -/
def specPythonVersion (artifact_name : String) : String :=
  match (pySplit artifact_name '-').find? (fun part => pyStartsWith part "py") with
  | some part => String.mk (part.data.drop 2)
  | none => ""

/-- Is this JSON value a measurement object (a dict)? -/
def isMeasObj : JVal → Bool
  | .obj _ => true
  | _ => false

/-- The fields of a JSON object (`[]` for non-objects, which the
well-formedness conditions below exclude). -/
def fieldsOf : JVal → List (String × JVal)
  | .obj fs => fs
  | _ => []

/-- Spec wording of the per-measurement extraction: stage is the
`label` field or `"unknown"` if absent; energy is `total_energy_J` if
present, else `cpu_energy_J` if present, else `0.0`; duration is
`duration` or `0.0`; timestamp is `time` or `""`. -/
def specRecord (fields : List (String × JVal)) : MRecord :=
  { stage :=
      match fields.lookup "label" with
      | some v => v
      | none => .str "unknown"
    energy_joules :=
      match fields.lookup "total_energy_J" with
      | some v => v
      | none =>
          match fields.lookup "cpu_energy_J" with
          | some v => v
          | none => .num 0
    duration_seconds :=
      match fields.lookup "duration" with
      | some v => v
      | none => .num 0
    timestamp :=
      match fields.lookup "time" with
      | some v => v
      | none => .str "" }

/-- The measurement objects a member file contributes: `none` when the
member is JSON-malformed, has a scalar top level, or has a non-list
`"measurements"` entry. -/
def memberMeasurements (m : ZipMember) : Option (List JVal) :=
  match m.content with
  | .junk _ => none
  | .val v =>
      match measurementsOf v with
      | some (.ok ms) => some ms
      | _ => none

/-- A member file all of whose measurements are well-formed objects. -/
def wfJsonMember (m : ZipMember) : Bool :=
  match memberMeasurements m with
  | some ms => ms.all isMeasObj
  | none => false

/-- The records the spec says one member file yields. -/
def specMemberRows (m : ZipMember) : List MRecord :=
  ((memberMeasurements m).getD []).map (fun v => specRecord (fieldsOf v))

/-- The records the spec says a list of member files yields, in file
order. -/
def specRows (members : List ZipMember) : List MRecord :=
  members.flatMap specMemberRows

/-- Total number of measurement objects in a list of member files. -/
def measCount (members : List ZipMember) : ℕ :=
  (members.map (fun m => ((memberMeasurements m).getD []).length)).sum

/-- The measurement records an artifact successfully yields: none when
the download is skipped or fails, else the rows of a non-fatal parse. -/
def specArtifactRecords (a : Artifact) : List MRecord :=
  match (download_artifact a).1 with
  | none => []
  | some raw => (Outcome.rowsOf (parse_eco_ci_json raw a.name)).getD []

/-- The spec's join of one measurement record with its run's metadata
and the inferred configuration and runtime version. -/
def specJoin (run : WorkflowRun) (a : Artifact) (r : MRecord) : OutputRow :=
  { run_id := run.id
    config := infer_config run
    workflow := run.name.getD "unknown"
    branch := run.head_branch.getD "unknown"
    stage := r.stage
    energy_joules := r.energy_joules
    duration_seconds := r.duration_seconds
    timestamp := r.timestamp
    python_version := infer_python_version a.name }

/-- All output rows one run contributes, per the spec: one row per
successfully extracted record of each of its eco artifacts. -/
def specRunRows (run : WorkflowRun) : List OutputRow :=
  (run.artifacts.filter (fun a => pyContains (pyLower a.name) "eco-ci")).flatMap
    (fun a => (specArtifactRecords a).map (specJoin run a))

/-! ## Example inputs -/

/-- The spec's two-object bare-list archive member:
`[{"label":"a","total_energy_J":1.0,"duration":2.0,"time":"t1"},
  {"label":"b","cpu_energy_J":3.0}]`. -/
def exMemC1 : ZipMember :=
  { name := "eco-ci-results.json"
    content := .val (.arr
      [ .obj [("label", .str "a"), ("total_energy_J", .num 1),
              ("duration", .num 2), ("time", .str "t1")],
        .obj [("label", .str "b"), ("cpu_energy_J", .num 3)] ]) }

/-- A member file whose bytes fail JSON parsing. -/
def junkMember : ZipMember :=
  { name := "bad.json", content := .junk "Expecting value" }

/-- A member file whose top-level JSON value is a bare number. -/
def scalarMember : ZipMember :=
  { name := "metrics.json", content := .val (.num 5) }

/-- A remote endpoint whose first page is full (100 items) and whose
second page is short. -/
def fetchExample : ℕ → List ℕ :=
  fun page => if page = 1 then List.replicate 100 0 else [5]

/-- An artifact with a download URL whose download succeeds with the
two-object archive. -/
def exArtifact : Artifact :=
  { name := "eco-ci-results-tests-py3.11-ubuntu-latest"
    archive_download_url := some "https://api.github.com/x/zip"
    response := some (.archive [exMemC1]) }

/-- An artifact whose metadata lacks `archive_download_url`. -/
def noUrlArtifact : Artifact :=
  { name := "eco-ci-results-expired"
    archive_download_url := none
    response := none }

/-- A completed run on the baseline experiment branch carrying
`exArtifact`. -/
def exRun : WorkflowRun :=
  { id := 42
    head_branch := some "experiment/c1-baseline"
    name := some "Tests"
    path := some ".github/workflows/tests.yml"
    artifacts := [exArtifact] }

/-- The run of the spec's precedence example: branch
`experiment/c2-pip-cache-v2`, workflow file `tests.yml`. -/
def exC3Run : WorkflowRun :=
  { id := 1
    head_branch := some "experiment/c2-pip-cache-v2"
    name := some "Tests"
    path := some "tests.yml"
    artifacts := [] }

/-- An environment with both variables set and non-empty. -/
def exEnv : Env :=
  { GITHUB_TOKEN := some "token", GITHUB_REPO := some "owner/repo" }

/-- An environment with both variables unset. -/
def emptyEnv : Env :=
  { GITHUB_TOKEN := none, GITHUB_REPO := none }

lemma findBranchLabel_eq_find (branch : String) :
    ∀ l : List (String × String),
      findBranchLabel branch l =
        (l.find? (fun entry => branch == entry.1 || pyStartsWith branch entry.1)).map
          Prod.snd
  | [] => rfl
  | (p, label) :: rest => by
      by_cases h : (branch == p || pyStartsWith branch p) = true
      · simp [findBranchLabel, List.find?, h]
      · simp [findBranchLabel, List.find?, h, findBranchLabel_eq_find branch rest]

lemma findPyPart_eq_find :
    ∀ parts : List String,
      findPyPart parts =
        match parts.find? (fun part => pyStartsWith part "py") with
        | some part => String.mk (part.data.drop 2)
        | none => ""
  | [] => rfl
  | part :: rest => by
      by_cases h : pyStartsWith part "py" = true
      · simp [findPyPart, List.find?, h]
      · simp [findPyPart, List.find?, h, findPyPart_eq_find rest]

/-- C3: `infer_config` returns the label of the first branch entry the
run's branch equals or starts with, falling back to the workflow-file
table on the final path component, then to `"unknown"`; in particular
branch `experiment/c2-pip-cache-v2` with workflow file `tests.yml`
infers `C2`, not `C1`. -/
theorem infer_config_spec :
    (∀ run : WorkflowRun, infer_config run = specConfig run) ∧
    infer_config exC3Run = "C2" ∧ infer_config exC3Run ≠ "C1" := by
  refine ⟨fun run => ?_, by rfl, by decide⟩
  unfold infer_config specConfig
  simp only [findBranchLabel_eq_find]
  cases List.find? (fun entry => run.head_branch.getD "" == entry.1 ||
      pyStartsWith (run.head_branch.getD "") entry.1) BRANCH_CONFIG_MAP with
  | none => rfl
  | some entry => rfl

/-- C7: `infer_python_version` returns the first `-`-token of the
artifact name that begins with `py`, stripped of that prefix, else the
empty string; in particular
`eco-ci-results-tests-py3.11-ubuntu-latest` yields `3.11`. -/
theorem infer_python_version_spec :
    (∀ name : String, infer_python_version name = specPythonVersion name) ∧
    infer_python_version "eco-ci-results-tests-py3.11-ubuntu-latest" = "3.11" ∧
    infer_python_version "eco-ci-results-ubuntu-latest" = "" := by
  refine ⟨fun name => ?_, by rfl, by rfl⟩
  unfold infer_python_version specPythonVersion
  exact findPyPart_eq_find _

/-! ## Pagination claims -/

lemma paginateAux_halts (fetch : ℕ → List α) (k : ℕ)
    (hshort : (fetch k).length < 100)
    (hlong : ∀ j, 1 ≤ j → j < k → ¬(fetch j).length < 100) :
    ∀ fuel p results requested, 1 ≤ p → p ≤ k → k - p < fuel →
      paginateAux fetch fuel p results requested =
        some (results ++ ((List.range' p (k - p + 1)).map fetch).flatten,
              requested ++ List.range' p (k - p + 1)) := by
  intro fuel
  induction fuel with
  | zero => intro p _ _ _ _ hfuel; omega
  | succ fuel ih =>
      intro p results requested hp1 hpk hfuel
      rcases eq_or_lt_of_le hpk with heq | hlt
      · subst heq
        simp [paginateAux, hshort, Nat.sub_self, List.range']
      · have hnotshort : ¬(fetch p).length < 100 := hlong p hp1 hlt
        have hd : k - p = (k - (p + 1)) + 1 := by omega
        have hrec := ih (p + 1) (results ++ fetch p) (requested ++ [p])
          (by omega) (by omega) (by omega)
        simp only [paginateAux, if_neg hnotshort, hrec, hd]
        rw [show List.range' p ((k - (p + 1) + 1) + 1) =
              p :: List.range' (p + 1) (k - (p + 1) + 1) from rfl]
        simp [List.append_assoc]

/-- C4: when page `k` is the first page with fewer than 100 items and
the fuel covers it, `paginate` returns the concatenation, in fetch
order, of pages 1 through `k`, and the requested pages are exactly
1 through `k` — no page after the first short one is requested. -/
theorem paginate_stops_at_first_short_page (fetch : ℕ → List α) (k fuel : ℕ)
    (hk1 : 1 ≤ k) (hshort : (fetch k).length < 100)
    (hlong : ∀ j, 1 ≤ j → j < k → ¬(fetch j).length < 100)
    (hfuel : k ≤ fuel) :
    paginate fetch fuel =
      some (((List.range' 1 k).map fetch).flatten, List.range' 1 k) := by
  have h := paginateAux_halts fetch k hshort hlong fuel 1 [] []
    le_rfl hk1 (by omega)
  have hk : k - 1 + 1 = k := by omega
  rw [hk] at h
  simpa [paginate] using h

/-- Witness for C4: on `fetchExample` the loop returns page 1 followed
by page 2 and requests exactly pages 1 and 2. -/
theorem paginate_stops_at_first_short_page_witness :
    paginate fetchExample 2 =
      some (List.replicate 100 0 ++ [5], [1, 2]) := by
  have h := paginate_stops_at_first_short_page fetchExample 2 2
    (by decide) (by decide)
    (by intro j h1 h2
        have hj : j = 1 := by omega
        subst hj
        decide)
    (by decide)
  simpa [fetchExample] using h

/-! ## Extraction claims -/

lemma specRows_length (members : List ZipMember) :
    (specRows members).length = measCount members := by
  induction members with
  | nil => rfl
  | cons m rest ih =>
      simp [specRows, specMemberRows, measCount] at ih ⊢
      omega

lemma extract_measurement_obj (fs : List (String × JVal)) :
    extract_measurement (.obj fs) = .ok (specRecord fs) := by
  simp only [extract_measurement, specRecord, dictGet]
  cases fs.lookup "label" <;> cases fs.lookup "total_energy_J" <;>
    cases fs.lookup "cpu_energy_J" <;> cases fs.lookup "duration" <;>
    cases fs.lookup "time" <;> rfl

lemma extract_all_wf (ms : List JVal) (h : ms.all isMeasObj = true) :
    extract_all ms = .ok (ms.map fun v => specRecord (fieldsOf v)) := by
  induction ms with
  | nil => rfl
  | cons m rest ih =>
      simp only [List.all_cons, Bool.and_eq_true] at h
      obtain ⟨h1, h2⟩ := h
      cases m
      case obj fs =>
        simp only [extract_all, extract_measurement_obj, ih h2]
        rfl
      all_goals simp [isMeasObj] at h1

lemma processMembers_append_wf (name : String) :
    ∀ (pre ms : List ZipMember) (acc : List MRecord),
      pre.all wfJsonMember = true →
      processMembers name (pre ++ ms) acc =
        processMembers name ms (acc ++ specRows pre) := by
  intro pre
  induction pre with
  | nil => intro ms acc _; simp [specRows]
  | cons m pre ih =>
      intro ms acc h
      simp only [List.all_cons, Bool.and_eq_true] at h
      obtain ⟨h1, h2⟩ := h
      cases hc : m.content with
      | junk e => simp [wfJsonMember, memberMeasurements, hc] at h1
      | val v =>
          cases hm : measurementsOf v with
          | none => simp [wfJsonMember, memberMeasurements, hc, hm] at h1
          | some r =>
              cases r with
              | error e => simp [wfJsonMember, memberMeasurements, hc, hm] at h1
              | ok l =>
                  have hall : l.all isMeasObj = true := by
                    simpa [wfJsonMember, memberMeasurements, hc, hm] using h1
                  rw [List.cons_append]
                  simp only [processMembers, hc, hm, extract_all_wf l hall]
                  rw [ih ms (acc ++ l.map fun v => specRecord (fieldsOf v)) h2]
                  simp [specRows, specMemberRows, memberMeasurements, hc, hm,
                    List.append_assoc]

/-- C1: when every JSON member of the archive is well-formed (its
measurements are all objects), extraction returns one record per
measurement object — `specRows`, whose fields follow the
label/total-else-cpu/duration/time rules with their defaults — and the
number of records equals the number of measurement objects. -/
theorem parse_yields_every_wf_measurement (members : List ZipMember) (name : String)
    (hwf : (jsonFiles members).all wfJsonMember = true) :
    Outcome.rowsOf (parse_eco_ci_json (.archive members) name) =
      some (specRows (jsonFiles members)) ∧
    (specRows (jsonFiles members)).length = measCount (jsonFiles members) := by
  refine ⟨?_, specRows_length _⟩
  by_cases he : (jsonFiles members).isEmpty
  · have h0 : jsonFiles members = [] := by simpa using he
    simp [parse_eco_ci_json, he, h0, specRows, Outcome.rowsOf]
  · have hpm := processMembers_append_wf name (jsonFiles members) [] [] hwf
    rw [List.append_nil, List.nil_append] at hpm
    simp [parse_eco_ci_json, he, hpm, processMembers, Outcome.rowsOf]

/-- Witness for C1: the spec's two-object bare-list archive yields the
records (stage `a`, energy 1, duration 2, ts `t1`) and (stage `b`,
energy 3, duration 0, ts `""`). -/
theorem parse_yields_every_wf_measurement_witness :
    Outcome.rowsOf (parse_eco_ci_json (.archive [exMemC1]) "eco-ci-results") =
      some
        [ { stage := .str "a", energy_joules := .num 1,
            duration_seconds := .num 2, timestamp := .str "t1" },
          { stage := .str "b", energy_joules := .num 3,
            duration_seconds := .num 0, timestamp := .str "" } ] := by
  have h := (parse_yields_every_wf_measurement [exMemC1] "eco-ci-results" (by rfl)).1
  exact h.trans (by rfl)

/-- Counterexample to C2 as stated: in an archive whose first member
yields two records and whose second member fails JSON parsing, the
returned record list is not empty — the rows accumulated before the
failure are returned. -/
theorem parse_empty_on_json_error_counterexample :
    Outcome.rowsOf (parse_eco_ci_json (.archive [exMemC1, junkMember]) "art") ≠
      some [] := by
  intro h
  have hv : Outcome.rowsOf (parse_eco_ci_json (.archive [exMemC1, junkMember]) "art") =
      some
        [ { stage := .str "a", energy_joules := .num 1,
            duration_seconds := .num 2, timestamp := .str "t1" },
          { stage := .str "b", energy_joules := .num 3,
            duration_seconds := .num 0, timestamp := .str "" } ] := rfl
  rw [hv] at h
  simp at h

/-- C2 (amended): a non-zip input yields a warning and an empty record
list; a JSON parse failure in a member file yields a warning and the
records accumulated from the (well-formed) member files before it —
empty when the failing file is the first — and no fatal error. -/
theorem parse_warns_and_keeps_prior_rows (name e junkName : String)
    (pre rest : List ZipMember)
    (hj : pyEndsWith junkName ".json" = true)
    (hwf : (jsonFiles pre).all wfJsonMember = true) :
    parse_eco_ci_json
        (.archive (pre ++ { name := junkName, content := .junk e } :: rest)) name =
      .done (specRows (jsonFiles pre)) [.jsonError name e] ∧
    parse_eco_ci_json .badZip name = .done [] [.notAZip name] := by
  refine ⟨?_, rfl⟩
  have hfil : jsonFiles (pre ++ { name := junkName, content := .junk e } :: rest) =
      jsonFiles pre ++ { name := junkName, content := .junk e } :: jsonFiles rest := by
    simp [jsonFiles, List.filter_append, List.filter_cons, hj]
  have hne : (jsonFiles pre ++
      ({ name := junkName, content := .junk e } : ZipMember) :: jsonFiles rest).isEmpty
        = false := by
    cases jsonFiles pre <;> rfl
  simp only [parse_eco_ci_json, hfil, hne, Bool.false_eq_true, if_false]
  rw [processMembers_append_wf name (jsonFiles pre) _ [] hwf]
  simp [processMembers]

/-- Witness for C2 (amended): the two-member archive of the
counterexample returns the first member's two records plus the JSON
warning. -/
theorem parse_warns_and_keeps_prior_rows_witness :
    parse_eco_ci_json
        (.archive ([exMemC1] ++ { name := "bad.json", content := .junk "Expecting value" } :: []))
        "art" =
      .done (specRows (jsonFiles [exMemC1])) [.jsonError "art" "Expecting value"] :=
  (parse_warns_and_keeps_prior_rows "art" "Expecting value" "bad.json" [exMemC1] []
    (by rfl) (by rfl)).1

lemma processMembers_skip_scalar (name : String) (m : ZipMember) (v : JVal)
    (hv : m.content = .val v) (hs : measurementsOf v = none) :
    ∀ (pre post : List ZipMember) (acc : List MRecord),
      processMembers name (pre ++ m :: post) acc =
        processMembers name (pre ++ post) acc := by
  intro pre post
  induction pre with
  | nil => intro acc; simp [processMembers, hv, hs]
  | cons p pre ih =>
      intro acc
      cases hp : p.content with
      | junk e => simp [processMembers, hp]
      | val d =>
          cases hm : measurementsOf d with
          | none => simp only [List.cons_append, processMembers, hp, hm]; exact ih acc
          | some r =>
              cases r with
              | error e => simp [processMembers, hp, hm]
              | ok l =>
                  cases he : extract_all l with
                  | error e => simp [processMembers, hp, hm, he]
                  | ok rows =>
                      simp only [List.cons_append, processMembers, hp, hm, he]
                      exact ih (acc ++ rows)

/-- C9: a JSON member whose top-level value is neither a list nor a
dict contributes nothing: the member loop treats the archive as if the
member were absent (no records, no warning from it, later members still
processed), and an archive holding only such a member parses to zero
records and zero warnings. -/
theorem scalar_toplevel_skipped (name : String) (m : ZipMember) (v : JVal)
    (hname : pyEndsWith m.name ".json" = true)
    (hv : m.content = .val v) (hs : measurementsOf v = none) :
    (∀ (pre post : List ZipMember) (acc : List MRecord),
        processMembers name (pre ++ m :: post) acc =
          processMembers name (pre ++ post) acc) ∧
    parse_eco_ci_json (.archive [m]) name = .done [] [] := by
  refine ⟨processMembers_skip_scalar name m v hv hs, ?_⟩
  have hfil : jsonFiles [m] = [m] := by
    simp [jsonFiles, List.filter_cons, hname]
  simp [parse_eco_ci_json, hfil, processMembers, hv, hs]

/-- Witness for C9: a member holding the bare number `5` is skipped in
the middle of an archive and alone yields no records and no warning. -/
theorem scalar_toplevel_skipped_witness :
    processMembers "art" ([exMemC1] ++ scalarMember :: []) [] =
        processMembers "art" ([exMemC1] ++ []) [] ∧
    parse_eco_ci_json (.archive [scalarMember]) "art" = .done [] [] :=
  ⟨(scalar_toplevel_skipped "art" scalarMember (.num 5) (by rfl) rfl rfl).1 [exMemC1] [] [],
   (scalar_toplevel_skipped "art" scalarMember (.num 5) (by rfl) rfl rfl).2⟩

/-! ## Main-loop claims -/

lemma processArtifact_ok (rid : ℕ) (cfg wf br : String) (a : Artifact)
    (rows : List OutputRow) (h : processArtifact rid cfg wf br a = .ok rows) :
    rows = (specArtifactRecords a).map (fun r =>
      { run_id := rid, config := cfg, workflow := wf, branch := br,
        stage := r.stage, energy_joules := r.energy_joules,
        duration_seconds := r.duration_seconds, timestamp := r.timestamp,
        python_version := infer_python_version a.name : OutputRow }) := by
  cases hd : (download_artifact a).1 with
  | none =>
      simp only [processArtifact, hd, Except.ok.injEq] at h
      subst h
      simp [specArtifactRecords, hd]
  | some raw =>
      cases hp : parse_eco_ci_json raw a.name with
      | fatal e =>
          simp [processArtifact, hd, hp] at h
      | done rs ws =>
          simp only [processArtifact, hd, hp, Except.ok.injEq] at h
          subst h
          simp [specArtifactRecords, hd, hp, Outcome.rowsOf]

lemma processArtifacts_ok (rid : ℕ) (cfg wf br : String) :
    ∀ (arts : List Artifact) (acc out : List OutputRow),
      processArtifacts rid cfg wf br arts acc = .ok out →
      out = acc ++ arts.flatMap (fun a => (specArtifactRecords a).map (fun r =>
        { run_id := rid, config := cfg, workflow := wf, branch := br,
          stage := r.stage, energy_joules := r.energy_joules,
          duration_seconds := r.duration_seconds, timestamp := r.timestamp,
          python_version := infer_python_version a.name : OutputRow })) := by
  intro arts
  induction arts with
  | nil =>
      intro acc out h
      injection h with h'
      subst h'
      simp
  | cons a rest ih =>
      intro acc out h
      unfold processArtifacts at h
      cases hpa : processArtifact rid cfg wf br a with
      | error e =>
          rw [hpa] at h
          have h2 : (Except.error e : Except String (List OutputRow)) = .ok out := h
          exact Except.noConfusion h2
      | ok rows1 =>
          rw [hpa] at h
          have h2 : processArtifacts rid cfg wf br rest (acc ++ rows1) = .ok out := h
          have h3 := ih (acc ++ rows1) out h2
          rw [processArtifact_ok rid cfg wf br a rows1 hpa] at h3
          rw [h3, List.flatMap_cons, List.append_assoc]

lemma processRun_ok (run : WorkflowRun) (acc out : List OutputRow)
    (h : processRun run acc = .ok out) : out = acc ++ specRunRows run := by
  unfold processRun at h
  have h1 := processArtifacts_ok run.id (infer_config run) (run.name.getD "unknown")
    (run.head_branch.getD "unknown") _ acc out h
  rw [h1]
  rfl

lemma collectRows_ok :
    ∀ (runs : List WorkflowRun) (acc out : List OutputRow),
      collectRows runs acc = .ok out → out = acc ++ runs.flatMap specRunRows := by
  intro runs
  induction runs with
  | nil =>
      intro acc out h
      injection h with h'
      subst h'
      simp
  | cons run rest ih =>
      intro acc out h
      unfold collectRows at h
      cases hr : processRun run acc with
      | error e =>
          rw [hr] at h
          have h2 : (Except.error e : Except String (List OutputRow)) = .ok out := h
          exact Except.noConfusion h2
      | ok acc1 =>
          rw [hr] at h
          have h2 : collectRows rest acc1 = .ok out := h
          have h3 := ih acc1 out h2
          rw [processRun_ok run acc acc1 hr] at h3
          rw [h3, List.flatMap_cons, List.append_assoc]

/-- C8: the rows `main` collects are exactly the per-run join rows in
run order — one row per successfully extracted record, no
deduplication, no dropping — so the row count is the sum over runs of
their record counts, and every row carries the id, workflow name and
branch of the run that yielded it. -/
theorem output_rows_join_records (runs : List WorkflowRun) (rows : List OutputRow)
    (h : collectRows runs [] = .ok rows) :
    rows = runs.flatMap specRunRows ∧
    rows.length = (runs.map (List.length ∘ specRunRows)).sum ∧
    ∀ row ∈ rows, ∃ run ∈ runs, row ∈ specRunRows run ∧
      row.run_id = run.id ∧ row.workflow = run.name.getD "unknown" ∧
      row.branch = run.head_branch.getD "unknown" := by
  have h1 := collectRows_ok runs [] rows h
  rw [List.nil_append] at h1
  refine ⟨h1, by rw [h1]; exact List.length_flatMap runs specRunRows, ?_⟩
  intro row hrow
  rw [h1, List.mem_flatMap] at hrow
  obtain ⟨run, hrun, hmem⟩ := hrow
  have hcopy := hmem
  unfold specRunRows at hcopy
  rw [List.mem_flatMap] at hcopy
  obtain ⟨a, ha, hra⟩ := hcopy
  rw [List.mem_map] at hra
  obtain ⟨r, hr, hrw⟩ := hra
  subst hrw
  exact ⟨run, hrun, hmem, rfl, rfl, rfl⟩

/-- Witness for C8: the single example run with one artifact holding
the two-object archive produces exactly its two join rows. -/
theorem output_rows_join_records_witness :
    [ { run_id := 42, config := "C1", workflow := "Tests",
        branch := "experiment/c1-baseline", stage := .str "a",
        energy_joules := .num 1, duration_seconds := .num 2,
        timestamp := .str "t1", python_version := "3.11" : OutputRow },
      { run_id := 42, config := "C1", workflow := "Tests",
        branch := "experiment/c1-baseline", stage := .str "b",
        energy_joules := .num 3, duration_seconds := .num 0,
        timestamp := .str "", python_version := "3.11" : OutputRow } ] =
      [exRun].flatMap specRunRows :=
  (output_rows_join_records [exRun] _ (by rfl)).1

/-- C10: an artifact without `archive_download_url` is skipped:
`download_artifact` returns `None` having made no request and printed
no warning, and the artifact contributes zero output rows. -/
theorem missing_url_artifact_skipped (a : Artifact)
    (h : a.archive_download_url = none) :
    download_artifact a = (none, [], false) ∧
    ∀ (rid : ℕ) (cfg wf br : String),
      processArtifact rid cfg wf br a = .ok [] := by
  constructor
  · simp [download_artifact, h]
  · intro rid cfg wf br
    simp [processArtifact, download_artifact, h]

/-- Witness for C10, at a concrete URL-less artifact. -/
theorem missing_url_artifact_skipped_witness :
    download_artifact noUrlArtifact = (none, [], false) ∧
    processArtifact 7 "C1" "Tests" "main" noUrlArtifact = .ok [] :=
  ⟨(missing_url_artifact_skipped noUrlArtifact rfl).1,
   (missing_url_artifact_skipped noUrlArtifact rfl).2 7 "C1" "Tests" "main"⟩

/-- C6: with either environment variable absent the program aborts
with exit status 1 and the matching `ERROR:` line on stderr, and no
API request is made. -/
theorem missing_env_aborts (env : Env) (runs : List WorkflowRun)
    (h : env.GITHUB_TOKEN = none ∨ env.GITHUB_REPO = none) :
    (main env runs =
        .aborted 1 "ERROR: GITHUB_TOKEN environment variable not set." ∨
     main env runs =
        .aborted 1 "ERROR: GITHUB_REPO environment variable not set.") ∧
    requestsMade env runs = 0 := by
  by_cases ht : pyFalsy env.GITHUB_TOKEN = true
  · exact ⟨Or.inl (by simp [main, get_headers, ht]),
      by simp [requestsMade, get_headers, ht]⟩
  · have hrepo : env.GITHUB_REPO = none := by
      rcases h with h1 | h2
      · exact absurd (by simp [pyFalsy, h1]) ht
      · exact h2
    have hr : pyFalsy env.GITHUB_REPO = true := by simp [pyFalsy, hrepo]
    exact ⟨Or.inr (by simp [main, get_headers, ht, hr]),
      by simp [requestsMade, get_headers, ht, hr]⟩

/-- Witness for C6, with both variables unset. -/
theorem missing_env_aborts_witness :
    (main emptyEnv [] =
        .aborted 1 "ERROR: GITHUB_TOKEN environment variable not set." ∨
     main emptyEnv [] =
        .aborted 1 "ERROR: GITHUB_REPO environment variable not set.") ∧
    requestsMade emptyEnv [] = 0 :=
  missing_env_aborts emptyEnv [] (Or.inl rfl)

/-- C5: with credentials present, a run of `main` that collects zero
rows prints the diagnostic, exits with status 0 and writes no file,
while a run with rows writes the header row followed by every collected
data row, in order, to `results/raw_data.csv`. -/
theorem zero_rows_no_file_else_write (env : Env) (runs : List WorkflowRun)
    (rows : List OutputRow)
    (ht : pyFalsy env.GITHUB_TOKEN = false) (hr : pyFalsy env.GITHUB_REPO = false)
    (h : collectRows runs [] = .ok rows) :
    (rows = [] →
      main env runs =
        .finished 0 "\nNo data collected. Have the workflows been triggered yet?"
          none) ∧
    (rows ≠ [] →
      main env runs =
        .finished 0
          ("\n✓ Wrote " ++ toString rows.length ++ " rows to results/raw_data.csv")
          (some (OUTPUT_CSV, CSV_COLUMNS, rows.map rowCells))) := by
  have hmain : main env runs = writeOutput rows := by
    simp [main, get_headers, ht, hr, h]
  constructor
  · intro hnil
    subst hnil
    simp [hmain, writeOutput]
  · intro hne
    have hie : rows.isEmpty = false := by
      cases rows with
      | nil => exact absurd rfl hne
      | cons x xs => rfl
    rw [hmain]
    simp [writeOutput, hie]

/-- Witness for C5, zero-row side: no runs at all. -/
theorem zero_rows_no_file_else_write_witness :
    main exEnv [] =
      .finished 0 "\nNo data collected. Have the workflows been triggered yet?"
        none :=
  (zero_rows_no_file_else_write exEnv [] [] rfl rfl rfl).1 rfl

end CollectResults
